import Mathlib

/-!
Shallow embedding of the FrameAnnotator backend core
(`backend/app/services/video_service.py`, `backend/app/services/label_service.py`,
`backend/app/api/labels.py`) and proofs about it.

Numeric values that Python holds as `float` are modelled as exact rationals.
Because Mathlib's rational arithmetic operations are irreducible (so concrete
instances could not be checked by `decide`), the embedding uses the
`Rat.divInt`-based operations `qAdd`, `qSub`, `qMul`, `qDiv` below, each proved
equal to the corresponding field operation on `ℚ`.  Possibly-absent or
non-numeric dictionary entries are modelled by the `PyField` type.
-/

namespace FrameAnnotator

/-- Addition on `ℚ` by explicit numerator/denominator arithmetic (kernel-reducible). -/
def qAdd (a b : ℚ) : ℚ := Rat.divInt (a.num * b.den + b.num * a.den) (a.den * b.den)

/-- Subtraction on `ℚ` by explicit numerator/denominator arithmetic (kernel-reducible). -/
def qSub (a b : ℚ) : ℚ := Rat.divInt (a.num * b.den - b.num * a.den) (a.den * b.den)

/-- Multiplication on `ℚ` by explicit numerator/denominator arithmetic (kernel-reducible). -/
def qMul (a b : ℚ) : ℚ := Rat.divInt (a.num * b.num) (a.den * b.den)

/-- Division on `ℚ` by explicit numerator/denominator arithmetic (kernel-reducible);
`qDiv a 0 = 0`, matching Lean's convention — the embedded code only divides by
values it has checked to be nonzero. -/
def qDiv (a b : ℚ) : ℚ := Rat.divInt (a.num * b.den) (b.num * a.den)

theorem den_cast_ne (a : ℚ) : ((a.den : ℚ)) ≠ 0 := by
  exact_mod_cast a.den_nz

theorem num_den_cast (a : ℚ) : ((a.num : ℚ)) = a * (a.den : ℚ) :=
  (div_eq_iff (den_cast_ne a)).mp (Rat.num_div_den a)

theorem qAdd_eq (a b : ℚ) : qAdd a b = a + b := by
  rw [qAdd, Rat.divInt_eq_div]
  push_cast
  rw [div_eq_iff (by positivity), num_den_cast a, num_den_cast b]
  ring

theorem qSub_eq (a b : ℚ) : qSub a b = a - b := by
  rw [qSub, Rat.divInt_eq_div]
  push_cast
  rw [div_eq_iff (by positivity), num_den_cast a, num_den_cast b]
  ring

theorem qMul_eq (a b : ℚ) : qMul a b = a * b := by
  rw [qMul, Rat.divInt_eq_div]
  push_cast
  rw [div_eq_iff (by positivity), num_den_cast a, num_den_cast b]
  ring

theorem qDiv_eq (a b : ℚ) : qDiv a b = a / b := by
  rw [qDiv, Rat.divInt_eq_div]
  rcases eq_or_ne b 0 with hb | hb
  · subst hb; simp
  · have hbn : (b.num : ℚ) ≠ 0 := by exact_mod_cast Rat.num_ne_zero.mpr hb
    push_cast
    rw [div_eq_div_iff (mul_ne_zero hbn (den_cast_ne a)) hb,
      num_den_cast a, num_den_cast b]
    ring

theorem ratFloor_eq (q : ℚ) : q.floor = ⌊q⌋ :=
  (Rat.floor_def' q).trans Rat.floor_def.symm

/-- Python `round` on a rational: round half to even (banker's rounding),
comparing the fractional part `q - floor q` against one half. -/
def pyRound (q : ℚ) : ℤ :=
  if qSub q (q.floor : ℚ) < mkRat 1 2 then q.floor
  else if mkRat 1 2 < qSub q (q.floor : ℚ) then q.floor + 1
  else if q.floor % 2 == 0 then q.floor else q.floor + 1

/-- Python `round(x, 6)`: round to 6 decimal digits, half to even. -/
def pyRound6 (q : ℚ) : ℚ :=
  qDiv (pyRound (qMul q 1000000) : ℚ) 1000000

/-- Python `int()` cast on a float value: truncate toward zero. -/
def pyIntCast (q : ℚ) : ℤ :=
  if 0 ≤ q then q.floor else -((Rat.neg q).floor)

/-- `max(0.0, min(1.0, q))`, the clamp used by `_compute_relative_pose`. -/
def clamp01 (q : ℚ) : ℚ := max 0 (min 1 q)

/-- Zero-padding to 5 digits, Python's `f"{k:05d}"` for nonnegative `k`. -/
def pad5 (n : ℕ) : String :=
  let s := toString n
  String.mk (List.replicate (5 - s.length) '0') ++ s

/-- `config.FRAME_PREFIX` based frame file name `f"frame_{k:05d}.jpg"`. -/
def frameName (k : ℕ) : String := "frame_" ++ pad5 k ++ ".jpg"

/-- Error taxonomy: the `HTTPException`s raised by the services
(represented by where in the code they are raised, not by transport codes). -/
inductive Err where
  | sessionNotFound
  | frameNotFound
  | invalidRate
  | invalidLabel
  | invalidHandLabel
  | boxesNotDict
  | boxesMissingKeys
  | invalidBox
  | castFailure
  | sourceMissing
  | sourceUnreadable
  deriving DecidableEq, Repr

/-! ## Frame extraction (`video_service.extract_frames`) -/

/-- `frame_interval = max(1, int(round(video_fps / fps))) if video_fps > 0 else 1`
from `extract_frames`.  `video_fps` is the native rate reported by the decoder,
`fps` the requested sampling rate. -/
def frameInterval (videoFps : ℚ) (fps : ℤ) : ℤ :=
  if 0 < videoFps then max 1 (pyRound (qDiv videoFps (fps : ℚ))) else 1

/-- The decode loop of `extract_frames`: `n` raw frames remain to be decoded,
`idx` is the zero-based raw index of the next frame, `saved` the list of
(raw index, file name) pairs kept so far.  A frame is kept when
`frame_idx % frame_interval == 0`; its name is numbered by
`len(saved_files) + 1`. -/
def extractLoop (interval : ℕ) : ℕ → ℕ → List (ℕ × String) → List (ℕ × String)
  | 0, _, saved => saved
  | n + 1, idx, saved =>
    let saved' := if idx % interval == 0
      then saved ++ [(idx, frameName (saved.length + 1))]
      else saved
    extractLoop interval n (idx + 1) saved'

/-- `extract_frames`, abstracted over the decoder: `totalRaw` raw frames decode
successfully in sequence, the native rate is `videoFps` (0 when unavailable).
Returns the kept frames as (raw index, saved file name) pairs in decode
order. -/
def extract_frames (totalRaw : ℕ) (videoFps : ℚ) (fps : ℤ) :
    Except Err (List (ℕ × String)) :=
  if fps ≤ 0 then .error .invalidRate
  else .ok (extractLoop (frameInterval videoFps fps).toNat totalRaw 0 [])

/-- Proof-side unrolling of `extractLoop`: the frames kept when `n` raw frames
remain, the next raw index is `idx`, and `cnt` frames were already kept. -/
def keptFrom (interval : ℕ) : ℕ → ℕ → ℕ → List (ℕ × String)
  | 0, _, _ => []
  | n + 1, idx, cnt =>
    if idx % interval == 0
      then (idx, frameName (cnt + 1)) :: keptFrom interval n (idx + 1) (cnt + 1)
      else keptFrom interval n (idx + 1) cnt

theorem extractLoop_eq_keptFrom (interval : ℕ) :
    ∀ (n idx : ℕ) (acc : List (ℕ × String)),
      extractLoop interval n idx acc = acc ++ keptFrom interval n idx acc.length := by
  intro n
  induction n with
  | zero => intro idx acc; simp [extractLoop, keptFrom]
  | succ n ih =>
    intro idx acc
    rw [extractLoop, keptFrom]
    by_cases h : idx % interval == 0
    · simp only [h, if_pos rfl, if_true]
      rw [ih (idx + 1) (acc ++ [(idx, frameName (acc.length + 1))])]
      simp [List.append_assoc]
    · simp only [h, if_neg, if_false, Bool.false_eq_true, not_false_iff]
      exact ih (idx + 1) acc

theorem keptFrom_map_fst (interval : ℕ) :
    ∀ (n idx cnt : ℕ),
      (keptFrom interval n idx cnt).map Prod.fst =
        (List.range' idx n).filter (fun i => i % interval == 0) := by
  intro n
  induction n with
  | zero => intro idx cnt; simp [keptFrom]
  | succ n ih =>
    intro idx cnt
    rw [keptFrom, List.range'_succ]
    by_cases h : idx % interval == 0
    · simp [h, List.filter_cons, ih]
    · simp [h, List.filter_cons, ih]

set_option maxRecDepth 100000

theorem keptFrom_map_snd (interval : ℕ) :
    ∀ (n idx cnt : ℕ),
      (keptFrom interval n idx cnt).map Prod.snd =
        (List.range' (cnt + 1) (keptFrom interval n idx cnt).length).map frameName := by
  intro n
  induction n with
  | zero => intro idx cnt; simp [keptFrom]
  | succ n ih =>
    intro idx cnt
    rw [keptFrom]
    by_cases h : idx % interval == 0
    · simp only [h, if_true, List.map_cons, List.length_cons, List.range'_succ]
      rw [ih (idx + 1) (cnt + 1)]
    · simp only [h, Bool.false_eq_true, if_false]
      exact ih (idx + 1) cnt

/-- C3: with a known positive native frame rate, `extract_frames` keeps exactly
the raw frames whose zero-based index is a multiple of
`interval = max(1, round(native_fps / requested_fps))`, and names the kept
frames `frame_00001.jpg`, `frame_00002.jpg`, … numbered by kept-frame count in
decode order with no gaps; in particular `fps = 5` on a source with native rate
30 and 150 raw frames gives `interval = 6` and the 25 files `frame_00001.jpg`
through `frame_00025.jpg` at raw indices 0, 6, …, 144. -/
theorem extract_frames_keeps_interval_multiples_gapless :
    (∀ (totalRaw : ℕ) (videoFps : ℚ) (fps : ℤ), 0 < videoFps → 0 < fps →
      ∃ saved, extract_frames totalRaw videoFps fps = .ok saved ∧
        saved.map Prod.fst =
          (List.range totalRaw).filter
            (fun i => i % (frameInterval videoFps fps).toNat == 0) ∧
        saved.map Prod.snd = (List.range' 1 saved.length).map frameName) ∧
    frameInterval 30 5 = 6 ∧
    (extract_frames 150 30 5).toOption = some [(0, "frame_00001.jpg"), (6, "frame_00002.jpg"),
      (12, "frame_00003.jpg"), (18, "frame_00004.jpg"), (24, "frame_00005.jpg"),
      (30, "frame_00006.jpg"), (36, "frame_00007.jpg"), (42, "frame_00008.jpg"),
      (48, "frame_00009.jpg"), (54, "frame_00010.jpg"), (60, "frame_00011.jpg"),
      (66, "frame_00012.jpg"), (72, "frame_00013.jpg"), (78, "frame_00014.jpg"),
      (84, "frame_00015.jpg"), (90, "frame_00016.jpg"), (96, "frame_00017.jpg"),
      (102, "frame_00018.jpg"), (108, "frame_00019.jpg"), (114, "frame_00020.jpg"),
      (120, "frame_00021.jpg"), (126, "frame_00022.jpg"), (132, "frame_00023.jpg"),
      (138, "frame_00024.jpg"), (144, "frame_00025.jpg")] := by
  refine ⟨?_, by decide, by decide⟩
  intro totalRaw videoFps fps hv hf
  refine ⟨extractLoop (frameInterval videoFps fps).toNat totalRaw 0 [], ?_, ?_, ?_⟩
  · rw [extract_frames, if_neg (not_le.mpr hf)]
  · rw [extractLoop_eq_keptFrom, List.nil_append, List.length_nil,
      keptFrom_map_fst, List.range_eq_range']
  · rw [extractLoop_eq_keptFrom, List.nil_append, List.length_nil,
      keptFrom_map_snd]

/-- Witness for C3 at the spec's example input (native rate 30, requested
fps 5, 150 raw frames): the hypotheses hold and the conclusion follows by
applying the theorem. -/
theorem extract_frames_keeps_interval_multiples_gapless_witness :
    0 < (30 : ℚ) ∧ 0 < (5 : ℤ) ∧
    ∃ saved, extract_frames 150 30 5 = .ok saved ∧
      saved.map Prod.fst =
        (List.range 150).filter (fun i => i % (frameInterval 30 5).toNat == 0) ∧
      saved.map Prod.snd = (List.range' 1 saved.length).map frameName :=
  ⟨by decide, by decide,
    extract_frames_keeps_interval_multiples_gapless.1 150 30 5 (by decide) (by decide)⟩

/-! ## Session documents (`label_service`) -/

/-- A value read out of a Python dict entry that the code will pass through
`float()` / `isinstance` checks: absent (`.get` returned `None`), present but
of a non-numeric type, a non-finite float, or a finite number. -/
inductive PyField where
  | missing
  | nonNumeric
  | nan
  | inf
  | ninf
  | num (q : ℚ)
  deriving DecidableEq, Repr

/-- An integer-cast bounding box as stored by `save_label` (`_cast_bbox`). -/
structure BBoxI where
  x : ℤ
  y : ℤ
  width : ℤ
  height : ℤ
  deriving DecidableEq, Repr

/-- A raw bounding box payload: the four dict entries of one box. -/
structure RawBBox where
  x : PyField
  y : PyField
  width : PyField
  height : PyField
  deriving DecidableEq, Repr

/-- The `boxes` dict of a pose-label request; the code requires the keys
`head`, `left_hand`, `right_hand`. -/
structure BoxesDict where
  head : Option RawBBox
  left_hand : Option RawBBox
  right_hand : Option RawBBox
  deriving DecidableEq, Repr

structure Point where
  x : ℚ
  y : ℚ
  deriving DecidableEq, Repr

/-- The three derived keypoints (also used for the relative pose). -/
structure Keypoints where
  head : Point
  left_hand : Point
  right_hand : Point
  deriving DecidableEq, Repr

/-- A raw detection payload, each entry as read by `_val` in `save_detections`. -/
structure RawDet where
  x : PyField
  y : PyField
  box_size : PyField
  image_width : PyField
  image_height : PyField
  deriving DecidableEq, Repr

/-- A stored detection: raw values plus derived normalized center/size. -/
structure Det where
  x : ℚ
  y : ℚ
  box_size : ℚ
  image_width : ℚ
  image_height : ℚ
  x_center : ℚ
  y_center : ℚ
  width : ℚ
  height : ℚ
  deriving DecidableEq, Repr

/-- One frame record of a session document.  Every key the code reads with
`.get` (treating `null` and "absent" alike) is modelled as an `Option`;
`labeled` is read with a falsy default, hence a `Bool`. -/
structure FrameRecord where
  frame_name : String
  labeled : Bool := false
  label : Option ℤ := none
  hand_label : Option ℤ := none
  head_box : Option BBoxI := none
  left_hand_box : Option BBoxI := none
  right_hand_box : Option BBoxI := none
  keypoints : Option Keypoints := none
  relative_pose : Option Keypoints := none
  detection_boxes : Option (List Det) := none
  detection_saved : Option Bool := none
  deriving DecidableEq, Repr

/-- A session label document (`labels/{session_id}.json`). -/
structure Doc where
  session_id : String
  fps : ℤ
  frames : List FrameRecord
  deriving DecidableEq, Repr

/-- `label_service.initialize_session`. -/
def initialize_session (session_id : String) (fps : ℤ) (frames : List String) : Doc :=
  { session_id := session_id, fps := fps,
    frames := frames.map (fun name => { frame_name := name, labeled := false }) }

/-- `next((frame for frame in frames if frame.get("frame_name") == frame_name), None)`. -/
def findFrame (frames : List FrameRecord) (fn : String) : Option FrameRecord :=
  frames.find? (fun fr => fr.frame_name == fn)

/-- In-place mutation of the first frame whose name matches, as Python's
`next(...)` + `existing.update(...)` does. -/
def updateFirst (frames : List FrameRecord) (fn : String)
    (g : FrameRecord → FrameRecord) : List FrameRecord :=
  match frames with
  | [] => []
  | fr :: rest => if fr.frame_name == fn then g fr :: rest else fr :: updateFirst rest fn g

/-- `label in {1, 2, 3, 4, 5}` (`_validate_label` / `_validate_hand_label`). -/
def validLabel (l : ℤ) : Bool := l == 1 || l == 2 || l == 3 || l == 4 || l == 5

/-- `k in bbox` for a required key. -/
def fieldPresent : PyField → Bool
  | .missing => false
  | _ => true

/-- Python `isinstance(v, (int, float))`: `nan` / `±inf` are floats and pass. -/
def fieldIsNumber : PyField → Bool
  | .num _ => true
  | .nan => true
  | .inf => true
  | .ninf => true
  | _ => false

/-- The comparison `v <= 0` on a float value (`False` for `nan` and `inf`). -/
def fieldLe0 : PyField → Bool
  | .num q => q ≤ 0
  | .ninf => true
  | _ => false

/-- `_validate_bbox`: required keys, numeric types, positive width/height. -/
def validate_bbox (b : RawBBox) : Except Err Unit :=
  if ¬(fieldPresent b.x && fieldPresent b.y && fieldPresent b.width && fieldPresent b.height)
    then .error .invalidBox
  else if ¬(fieldIsNumber b.x && fieldIsNumber b.y &&
            fieldIsNumber b.width && fieldIsNumber b.height)
    then .error .invalidBox
  else if fieldLe0 b.width || fieldLe0 b.height then .error .invalidBox
  else .ok ()

/-- `int(v)` on one dict entry; `int(nan)` / `int(inf)` raise in Python. -/
def castField : PyField → Except Err ℤ
  | .num q => .ok (pyIntCast q)
  | _ => .error .castFailure

/-- `_cast_bbox`. -/
def cast_bbox (b : RawBBox) : Except Err BBoxI := do
  let x ← castField b.x
  let y ← castField b.y
  let w ← castField b.width
  let h ← castField b.height
  return ⟨x, y, w, h⟩

/-- `_center` in `_boxes_to_keypoints`: `(x + width / 2, y + height / 2)`. -/
def boxCenter (b : BBoxI) : Point :=
  ⟨qAdd (b.x : ℚ) (qDiv (b.width : ℚ) 2), qAdd (b.y : ℚ) (qDiv (b.height : ℚ) 2)⟩

/-- `_boxes_to_keypoints`. -/
def boxes_to_keypoints (hb lb rb : BBoxI) : Keypoints :=
  ⟨boxCenter hb, boxCenter lb, boxCenter rb⟩

/-- `_norm` in `_compute_relative_pose`:
`round(max(0.0, min(1.0, (p - box_origin) / box_extent)), 6)` per coordinate. -/
def normPoint (b : BBoxI) (p : Point) : Point :=
  ⟨pyRound6 (clamp01 (qDiv (qSub p.x (b.x : ℚ)) (b.width : ℚ))),
   pyRound6 (clamp01 (qDiv (qSub p.y (b.y : ℚ)) (b.height : ℚ)))⟩

/-- `_compute_relative_pose`. -/
def compute_relative_pose (kp : Keypoints) (b : BBoxI) : Except Err Keypoints :=
  if b.width ≤ 0 ∨ b.height ≤ 0 then .error .invalidBox
  else .ok ⟨normPoint b kp.head, normPoint b kp.left_hand, normPoint b kp.right_hand⟩

/-- The `existing.update({...})` of `save_label`: all derived fields written
onto the found frame record together. -/
def poseUpdate (label : ℤ) (hand_label : Option ℤ) (head_box left_box right_box : BBoxI)
    (keypoints relative_pose : Keypoints) (fr : FrameRecord) : FrameRecord :=
  { fr with
      labeled := true, label := some label, hand_label := hand_label,
      head_box := some head_box, left_hand_box := some left_box,
      right_hand_box := some right_box, keypoints := some keypoints,
      relative_pose := some relative_pose }

/-- The body of `save_label` once the session document was loaded: validate,
derive, look the frame up, update it.  Any `.error` corresponds to an exception
raised before the document is written back, in the order the source raises. -/
def save_label_core (data : Doc) (frame_name : String) (boxes : BoxesDict)
    (label : ℤ) (hand_label : Option ℤ) : Except Err Doc :=
  if !validLabel label then .error .invalidLabel
  else if (match hand_label with | some h => !validLabel h | none => false)
    then .error .invalidHandLabel
  else match boxes.head, boxes.left_hand, boxes.right_hand with
    | some rawH, some rawL, some rawR =>
      match validate_bbox rawH with
      | .error e => .error e
      | .ok _ =>
      match validate_bbox rawL with
      | .error e => .error e
      | .ok _ =>
      match validate_bbox rawR with
      | .error e => .error e
      | .ok _ =>
      match cast_bbox rawH, cast_bbox rawL, cast_bbox rawR with
      | .error e, _, _ => .error e
      | .ok _, .error e, _ => .error e
      | .ok _, .ok _, .error e => .error e
      | .ok head_box, .ok left_box, .ok right_box =>
        match compute_relative_pose (boxes_to_keypoints head_box left_box right_box)
            head_box with
        | .error e => .error e
        | .ok relative_pose =>
          match findFrame data.frames frame_name with
          | none => .error .frameNotFound
          | some _ =>
            .ok { data with
                    frames :=
                      updateFirst data.frames frame_name
                        (poseUpdate label hand_label head_box left_box right_box
                          (boxes_to_keypoints head_box left_box right_box)
                          relative_pose) }
    | _, _, _ => .error .boxesMissingKeys

/-- `save_label` with the document store made explicit: the first component
lists the documents written (`utils.write_json` appears exactly once in the
source, after all validation), the second the outcome. -/
def save_label (store : Option Doc) (frame_name : String) (boxes : BoxesDict)
    (label : ℤ) (hand_label : Option ℤ) : List Doc × Except Err Unit :=
  match store with
  | none => ([], .error .sessionNotFound)
  | some data =>
    match save_label_core data frame_name boxes label hand_label with
    | .error e => ([], .error e)
    | .ok newDoc => ([newDoc], .ok ())

/-- `float(_val(key))` succeeds iff the entry is present and numeric
(`float(None)` and `float` of a non-numeric type raise, which the
`except` clause turns into a skip). -/
def fieldFloatOk : PyField → Bool
  | .missing => false
  | .nonNumeric => false
  | _ => true

/-- The per-detection validation of `save_detections`: `none` means the
detection is skipped (and counted), `some` carries the stored record with its
normalized center/size. -/
def validate_detection (det : RawDet) : Option Det :=
  if ¬(fieldFloatOk det.x && fieldFloatOk det.y && fieldFloatOk det.box_size &&
       fieldFloatOk det.image_width && fieldFloatOk det.image_height)
    then none
  else match det.x, det.y, det.box_size, det.image_width, det.image_height with
    | .num x, .num y, .num size, .num w, .num h =>
      if size ≤ 0 || w ≤ 0 || h ≤ 0 then none
      else some { x := x, y := y, box_size := size, image_width := w, image_height := h,
                  x_center := qDiv x w, y_center := qDiv y h,
                  width := qDiv size w, height := qDiv size h }
    | _, _, _, _, _ => none

/-- The `for det in detections` loop: surviving detections in order, and the
number skipped. -/
def detLoop : List RawDet → List Det × ℕ
  | [] => ([], 0)
  | det :: rest =>
    match validate_detection det with
    | some d =>
      let (vs, sk) := detLoop rest
      (d :: vs, sk)
    | none =>
      let (vs, sk) := detLoop rest
      (vs, sk + 1)

/-- The JSON body returned by `save_detections`. -/
structure DetResult where
  success : Bool
  count : ℕ
  saved : Bool
  message : Option String
  deriving DecidableEq, Repr

/-- The two keys `save_detections` sets on the (found or lazily created)
frame record. -/
def setDetFields (valid : List Det) (flag : Bool) (fr : FrameRecord) : FrameRecord :=
  { fr with detection_boxes := some valid, detection_saved := some flag }

/-- The frame list after `save_detections`: the first frame of a matching name
is mutated in place; an unseen frame name is lazily registered by appending
`{"frame_name": frame_name}` with the detection fields set. -/
def detUpdateFrames (frames : List FrameRecord) (frame_name : String)
    (valid : List Det) (flag : Bool) : List FrameRecord :=
  match findFrame frames frame_name with
  | some _ => updateFirst frames frame_name (setDetFields valid flag)
  | none => frames ++ [setDetFields valid flag { frame_name := frame_name }]

/-- `save_detections`: `none` iff the session document does not exist,
otherwise the written document and the response body. -/
def save_detections (store : Option Doc) (frame_name : String)
    (detections : List RawDet) (saved : Bool) : Option (Doc × DetResult) :=
  match store with
  | none => none
  | some data =>
    let vsk := detLoop detections
    let valid_dets := vsk.1
    let skipped := vsk.2
    let flag := saved && ¬ valid_dets.isEmpty
    let message : Option String :=
      if saved && valid_dets.isEmpty then some "无有效选框，未计入导出"
      else if skipped ≠ 0 then some ("忽略 " ++ toString skipped ++ " 个无效框")
      else none
    some ({ data with frames := detUpdateFrames data.frames frame_name valid_dets flag },
      { success := true, count := valid_dets.length, saved := flag, message := message })

/-- `reset_labels` on one frame record: `labeled = False`, every label key
popped (the artifact deletions are filesystem effects outside the document). -/
def resetFrame (fr : FrameRecord) : FrameRecord :=
  { frame_name := fr.frame_name, labeled := false }

/-- `reset_labels` on the document store. -/
def reset_labels (store : Option Doc) : Option Doc :=
  match store with
  | none => none
  | some data => some { data with frames := data.frames.map resetFrame }

/-! ## Lemmas about frame lookup and first-match update -/

theorem findFrame_nil (fn : String) : findFrame [] fn = none := rfl

theorem findFrame_updateFirst (fn : String) (g : FrameRecord → FrameRecord)
    (hg : ∀ fr, (g fr).frame_name = fr.frame_name) :
    ∀ frames : List FrameRecord,
      findFrame (updateFirst frames fn g) fn = (findFrame frames fn).map g := by
  intro frames
  induction frames with
  | nil => rfl
  | cons fr rest ih =>
    by_cases h : fr.frame_name == fn
    · simp [updateFirst, findFrame, List.find?_cons, h, hg]
    · simp only [updateFirst, if_neg h]
      have h' : (fr.frame_name == fn) = false := by simpa using h
      rw [findFrame, findFrame, List.find?_cons, List.find?_cons]
      simp only [h']
      simpa [findFrame] using ih

theorem findFrame_append_right (fn : String) (rec : FrameRecord)
    (hr : rec.frame_name = fn) :
    ∀ frames : List FrameRecord, findFrame frames fn = none →
      findFrame (frames ++ [rec]) fn = some rec := by
  intro frames
  induction frames with
  | nil =>
    intro _
    rw [List.nil_append, findFrame, List.find?_cons_of_pos _ (by simp [hr])]
  | cons fr rest ih =>
    intro h
    rw [findFrame, List.find?_cons] at h
    rcases hcond : (fr.frame_name == fn) with _ | _
    · rw [List.cons_append, findFrame, List.find?_cons_of_neg _ (by simp_all)]
      exact ih (by rw [findFrame]; rw [hcond] at h; simpa using h)
    · rw [hcond] at h; simp at h

theorem updateFirst_idem (fn : String) (g : FrameRecord → FrameRecord)
    (hg : ∀ fr, (g fr).frame_name = fr.frame_name)
    (hgg : ∀ fr, g (g fr) = g fr) :
    ∀ frames : List FrameRecord,
      updateFirst (updateFirst frames fn g) fn g = updateFirst frames fn g := by
  intro frames
  induction frames with
  | nil => rfl
  | cons fr rest ih =>
    by_cases h : fr.frame_name == fn
    · rw [updateFirst, if_pos h, updateFirst, if_pos (by simp [hg]; simpa using h), hgg]
    · rw [updateFirst, if_neg h, updateFirst, if_neg h, ih]

theorem updateFirst_append_right (fn : String) (g : FrameRecord → FrameRecord)
    (rec : FrameRecord) (hr : rec.frame_name = fn) :
    ∀ frames : List FrameRecord, findFrame frames fn = none →
      updateFirst (frames ++ [rec]) fn g = frames ++ [g rec] := by
  intro frames
  induction frames with
  | nil =>
    intro _
    rw [List.nil_append, updateFirst, if_pos (by simp [hr]), List.nil_append]
  | cons fr rest ih =>
    intro h
    rw [findFrame, List.find?_cons] at h
    rcases hcond : (fr.frame_name == fn) with _ | _
    · rw [List.cons_append, updateFirst, if_neg (by simp_all), List.cons_append,
        ih (by rw [findFrame]; rw [hcond] at h; simpa using h)]
    · rw [hcond] at h; simp at h

theorem setDetFields_name (valid : List Det) (flag : Bool) (fr : FrameRecord) :
    (setDetFields valid flag fr).frame_name = fr.frame_name := rfl

theorem setDetFields_idem (valid : List Det) (flag : Bool) (fr : FrameRecord) :
    setDetFields valid flag (setDetFields valid flag fr) = setDetFields valid flag fr := rfl

theorem findFrame_detUpdateFrames (frames : List FrameRecord) (fn : String)
    (valid : List Det) (flag : Bool) :
    ∃ fr, findFrame (detUpdateFrames frames fn valid flag) fn =
      some (setDetFields valid flag fr) := by
  unfold detUpdateFrames
  cases hf : findFrame frames fn with
  | some fr0 =>
    refine ⟨fr0, ?_⟩
    rw [findFrame_updateFirst fn _ (setDetFields_name valid flag), hf, Option.map_some']
  | none =>
    exact ⟨{ frame_name := fn }, findFrame_append_right fn _ rfl frames hf⟩

theorem detUpdateFrames_idem (frames : List FrameRecord) (fn : String)
    (valid : List Det) (flag : Bool) :
    detUpdateFrames (detUpdateFrames frames fn valid flag) fn valid flag =
      detUpdateFrames frames fn valid flag := by
  unfold detUpdateFrames
  cases hf : findFrame frames fn with
  | some fr0 =>
    rw [findFrame_updateFirst fn _ (setDetFields_name valid flag), hf, Option.map_some']
    exact updateFirst_idem fn _ (setDetFields_name valid flag) (setDetFields_idem valid flag)
      frames
  | none =>
    rw [findFrame_append_right fn _ rfl frames hf,
      updateFirst_append_right fn _ _ rfl frames hf, setDetFields_idem]

/-- C4: for every call on an existing session, the stored `detection_saved`
flag equals `saved AND (surviving valid-detection set nonempty)`; in
particular a request with `saved = true` but zero surviving valid detections
stores `detection_saved = false`. -/
theorem save_detections_saved_flag (data : Doc) (fn : String)
    (dets : List RawDet) (saved : Bool) :
    ∃ newDoc res, save_detections (some data) fn dets saved = some (newDoc, res) ∧
      res.saved = (saved && ¬(detLoop dets).1.isEmpty) ∧
      (∃ fr, findFrame newDoc.frames fn = some fr ∧
        fr.detection_saved = some (saved && ¬(detLoop dets).1.isEmpty)) ∧
      ((detLoop dets).1.isEmpty = true →
        ∃ fr, findFrame newDoc.frames fn = some fr ∧
          fr.detection_saved = some false) := by
  refine ⟨_, _, rfl, rfl, ?_, ?_⟩
  · obtain ⟨fr, hfr⟩ := findFrame_detUpdateFrames data.frames fn (detLoop dets).1
      (saved && ¬(detLoop dets).1.isEmpty)
    exact ⟨_, hfr, rfl⟩
  · intro hempty
    obtain ⟨fr, hfr⟩ := findFrame_detUpdateFrames data.frames fn (detLoop dets).1
      (saved && ¬(detLoop dets).1.isEmpty)
    refine ⟨_, hfr, ?_⟩
    simp [setDetFields, hempty]

/-- Witness for C4: a concrete `saved = true` request whose only detection is
invalid (`box_size = 0`), on a one-frame session; the surviving set is empty
and the stored flag is `false`. -/
theorem save_detections_saved_flag_witness :
    ∃ newDoc res,
      save_detections (some (initialize_session "s" 5 ["frame_00001.jpg"]))
        "frame_00001.jpg" [⟨.num 10, .num 10, .num 0, .num 100, .num 100⟩] true =
        some (newDoc, res) ∧
      res.saved = (true && ¬(detLoop [(⟨.num 10, .num 10, .num 0, .num 100, .num 100⟩ : RawDet)]).1.isEmpty) ∧
      (∃ fr, findFrame newDoc.frames "frame_00001.jpg" = some fr ∧
        fr.detection_saved = some (true && ¬(detLoop [(⟨.num 10, .num 10, .num 0, .num 100, .num 100⟩ : RawDet)]).1.isEmpty)) ∧
      ((detLoop [(⟨.num 10, .num 10, .num 0, .num 100, .num 100⟩ : RawDet)]).1.isEmpty = true →
        ∃ fr, findFrame newDoc.frames "frame_00001.jpg" = some fr ∧
          fr.detection_saved = some false) :=
  save_detections_saved_flag (initialize_session "s" 5 ["frame_00001.jpg"])
    "frame_00001.jpg" [⟨.num 10, .num 10, .num 0, .num 100, .num 100⟩] true

/-- C9: `save_detections` is idempotent — the second identical call finds the
frame it stored (or lazily registered) and rewrites the same detection list
and `detection_saved` value, returning the same document and response. -/
theorem save_detections_idempotent (data : Doc) (fn : String)
    (dets : List RawDet) (saved : Bool) :
    ∃ d1 r1, save_detections (some data) fn dets saved = some (d1, r1) ∧
      save_detections (some d1) fn dets saved = some (d1, r1) := by
  refine ⟨_, _, rfl, ?_⟩
  simp only [save_detections]
  rw [detUpdateFrames_idem]

/-! ## Per-detection validation (C5) -/

/-- The finite-number reading of a dict entry: `some q` iff the entry is a
finite number (so it passes both `float()` and `math.isfinite`). -/
def fieldNum : PyField → Option ℚ
  | .num q => some q
  | _ => none

theorem validate_detection_eq (det : RawDet) :
    validate_detection det =
      match fieldNum det.x, fieldNum det.y, fieldNum det.box_size,
            fieldNum det.image_width, fieldNum det.image_height with
      | some x, some y, some s, some w, some h =>
        if s ≤ 0 || w ≤ 0 || h ≤ 0 then none
        else some ⟨x, y, s, w, h, qDiv x w, qDiv y h, qDiv s w, qDiv s h⟩
      | _, _, _, _, _ => none := by
  obtain ⟨fx, fy, fs, fw, fh⟩ := det
  cases fx <;> cases fy <;> cases fs <;> cases fw <;> cases fh <;> rfl

theorem validate_detection_none_iff (det : RawDet) :
    validate_detection det = none ↔
      fieldNum det.x = none ∨ fieldNum det.y = none ∨ fieldNum det.box_size = none ∨
      fieldNum det.image_width = none ∨ fieldNum det.image_height = none ∨
      (∃ s w h, fieldNum det.box_size = some s ∧ fieldNum det.image_width = some w ∧
        fieldNum det.image_height = some h ∧ (s ≤ 0 ∨ w ≤ 0 ∨ h ≤ 0)) := by
  rw [validate_detection_eq]
  rcases hx : fieldNum det.x with _ | x <;>
  rcases hy : fieldNum det.y with _ | y <;>
  rcases hs : fieldNum det.box_size with _ | s <;>
  rcases hw : fieldNum det.image_width with _ | w <;>
  rcases hh : fieldNum det.image_height with _ | h <;>
    simp [hx, hy, hs, hw, hh]
  by_cases hcond : s ≤ 0 ∨ w ≤ 0 ∨ h ≤ 0
  · simp [hcond]
    rcases hcond with h1 | h1 | h1 <;> simp [h1]
  · push_neg at hcond
    simp [not_le.mpr hcond.1, not_le.mpr hcond.2.1, not_le.mpr hcond.2.2]

theorem validate_detection_valid (x y s w h : ℚ)
    (hs : 0 < s) (hw : 0 < w) (hh : 0 < h) :
    validate_detection ⟨.num x, .num y, .num s, .num w, .num h⟩ =
      some ⟨x, y, s, w, h, x / w, y / h, s / w, s / h⟩ := by
  rw [validate_detection_eq]
  simp only [fieldNum]
  rw [if_neg (by simp [not_le.mpr hs, not_le.mpr hw, not_le.mpr hh]),
    qDiv_eq, qDiv_eq, qDiv_eq, qDiv_eq]

theorem detLoop_fst (dets : List RawDet) :
    (detLoop dets).1 = dets.filterMap validate_detection := by
  induction dets with
  | nil => rfl
  | cons det rest ih =>
    cases h : validate_detection det <;>
      simp [detLoop, List.filterMap_cons, h, ih]

theorem detLoop_count (dets : List RawDet) :
    (detLoop dets).1.length + (detLoop dets).2 = dets.length := by
  induction dets with
  | nil => rfl
  | cons det rest ih =>
    cases h : validate_detection det <;> simp [detLoop, h] <;> omega

/-- C5: each raw detection is validated independently — a detection with a
missing/non-numeric/NaN/infinite field or a nonpositive `box_size`,
`image_width`, or `image_height` is skipped and counted without failing the
request; every survivor is stored with `x_center = x / image_width`,
`y_center = y / image_height`, `width = box_size / image_width`,
`height = box_size / image_height`; and on the spec's example the stored
values are 1/2, 1/2, 1/10, 1/5 with `count = 1`, `saved = true`. -/
theorem save_detections_per_item_validation :
    (∀ (data : Doc) (fn : String) (dets : List RawDet) (saved : Bool),
      ∃ newDoc res, save_detections (some data) fn dets saved = some (newDoc, res) ∧
        res.success = true ∧
        res.count = (dets.filterMap validate_detection).length ∧
        (detLoop dets).2 + (dets.filterMap validate_detection).length = dets.length ∧
        ∃ fr, findFrame newDoc.frames fn = some fr ∧
          fr.detection_boxes = some (dets.filterMap validate_detection)) ∧
    (∀ det : RawDet, validate_detection det = none ↔
      fieldNum det.x = none ∨ fieldNum det.y = none ∨ fieldNum det.box_size = none ∨
      fieldNum det.image_width = none ∨ fieldNum det.image_height = none ∨
      (∃ s w h, fieldNum det.box_size = some s ∧ fieldNum det.image_width = some w ∧
        fieldNum det.image_height = some h ∧ (s ≤ 0 ∨ w ≤ 0 ∨ h ≤ 0))) ∧
    (∀ (x y s w h : ℚ), 0 < s → 0 < w → 0 < h →
      validate_detection ⟨.num x, .num y, .num s, .num w, .num h⟩ =
        some ⟨x, y, s, w, h, x / w, y / h, s / w, s / h⟩) ∧
    ((save_detections (some (initialize_session "s" 5 ["frame_00001.jpg"]))
        "frame_00001.jpg" [⟨.num 100, .num 50, .num 20, .num 200, .num 100⟩] true).map
      (fun p => (p.2.count, p.2.saved, p.1.frames.map (fun fr => fr.detection_boxes))) =
      some (1, true,
        [some [⟨100, 50, 20, 200, 100, mkRat 1 2, mkRat 1 2, mkRat 1 10, mkRat 1 5⟩]])) := by
  refine ⟨?_, validate_detection_none_iff, validate_detection_valid, rfl⟩
  intro data fn dets saved
  refine ⟨_, _, rfl, rfl, ?_, ?_, ?_⟩
  · simp [detLoop_fst]
  · rw [← detLoop_fst]
    have h := detLoop_count dets
    omega
  · obtain ⟨fr, hfr⟩ := findFrame_detUpdateFrames data.frames fn (detLoop dets).1
      (saved && ¬(detLoop dets).1.isEmpty)
    exact ⟨_, hfr, by simp [setDetFields, detLoop_fst]⟩

/-- Witness for C5: the example detection survives with the claimed normalized
values, obtained by applying the theorem at `x=100, y=50, box_size=20,
image_width=200, image_height=100`. -/
theorem save_detections_per_item_validation_witness :
    0 < (20 : ℚ) ∧ 0 < (200 : ℚ) ∧ 0 < (100 : ℚ) ∧
    validate_detection ⟨.num 100, .num 50, .num 20, .num 200, .num 100⟩ =
      some ⟨100, 50, 20, 200, 100, 100 / 200, 50 / 100, 20 / 200, 20 / 100⟩ :=
  ⟨by decide, by decide, by decide,
    save_detections_per_item_validation.2.2.1 100 50 20 200 100
      (by decide) (by decide) (by decide)⟩

/-! ## Rounding and clamping bounds (C6) -/

theorem mkRat_half : (mkRat 1 2 : ℚ) = 1 / 2 := by
  rw [Rat.mkRat_eq_divInt, Rat.divInt_eq_div]
  norm_num

theorem pyRound_eq_floor_or_succ (q : ℚ) :
    pyRound q = ⌊q⌋ ∨ pyRound q = ⌊q⌋ + 1 := by
  unfold pyRound
  split_ifs <;> simp [ratFloor_eq]

theorem pyRound_nonneg (q : ℚ) (h : 0 ≤ q) : 0 ≤ pyRound q := by
  have hf : 0 ≤ ⌊q⌋ := Int.floor_nonneg.mpr h
  rcases pyRound_eq_floor_or_succ q with h1 | h1 <;> omega

theorem pyRound_le (q : ℚ) (n : ℤ) (h : q ≤ n) : pyRound q ≤ n := by
  have hfl : ⌊q⌋ ≤ n := by
    have h2 := Int.floor_le_floor h
    rwa [Int.floor_intCast] at h2
  have hstep : (⌊q⌋ : ℚ) + 1 / 2 ≤ q → pyRound q ≤ n := by
    intro h3
    have h4 : (⌊q⌋ : ℚ) < (n : ℚ) := by linarith
    have h5 : ⌊q⌋ < n := by exact_mod_cast h4
    rcases pyRound_eq_floor_or_succ q with h1 | h1 <;> omega
  unfold pyRound
  split_ifs with h1 h2 h3
  · rwa [ratFloor_eq]
  · rw [qSub_eq, mkRat_half, ratFloor_eq] at h2
    rw [ratFloor_eq]
    have h4 : (⌊q⌋ : ℚ) < (n : ℚ) := by linarith
    have h5 : ⌊q⌋ < n := by exact_mod_cast h4
    omega
  · rwa [ratFloor_eq]
  · rw [qSub_eq, mkRat_half, ratFloor_eq] at h1
    push_neg at h1
    rw [ratFloor_eq]
    have h4 : (⌊q⌋ : ℚ) < (n : ℚ) := by linarith
    have h5 : ⌊q⌋ < n := by exact_mod_cast h4
    omega

theorem pyRound6_nonneg (q : ℚ) (h : 0 ≤ q) : 0 ≤ pyRound6 q := by
  rw [pyRound6, qDiv_eq]
  have h1 : 0 ≤ pyRound (qMul q 1000000) :=
    pyRound_nonneg _ (by rw [qMul_eq]; positivity)
  have h2 : (0 : ℚ) ≤ (pyRound (qMul q 1000000) : ℚ) := by exact_mod_cast h1
  positivity

theorem pyRound6_le_one (q : ℚ) (h : q ≤ 1) : pyRound6 q ≤ 1 := by
  rw [pyRound6, qDiv_eq]
  have h1 : pyRound (qMul q 1000000) ≤ 1000000 := by
    refine pyRound_le _ _ ?_
    rw [qMul_eq]
    push_cast
    linarith
  rw [div_le_one (by norm_num)]
  exact_mod_cast h1

theorem clamp01_nonneg (q : ℚ) : 0 ≤ clamp01 q := le_max_left 0 _

theorem clamp01_le_one (q : ℚ) : clamp01 q ≤ 1 :=
  max_le (by norm_num) (min_le_left 1 q)

theorem normPoint_bounds (b : BBoxI) (p : Point) :
    0 ≤ (normPoint b p).x ∧ (normPoint b p).x ≤ 1 ∧
    0 ≤ (normPoint b p).y ∧ (normPoint b p).y ≤ 1 :=
  ⟨pyRound6_nonneg _ (clamp01_nonneg _), pyRound6_le_one _ (clamp01_le_one _),
   pyRound6_nonneg _ (clamp01_nonneg _), pyRound6_le_one _ (clamp01_le_one _)⟩

/-- C6: the derived keypoints are the geometric centers `(x + width/2,
y + height/2)` of the integer-cast boxes; each relative-pose coordinate is
`clamp01((p - head_origin) / head_extent)` rounded half-to-even to 6 decimal
digits; consequently every stored relative-pose coordinate lies in `[0, 1]`
regardless of how the boxes overlap. -/
theorem relative_pose_coordinates_clamped :
    (∀ hb lb rb : BBoxI, boxes_to_keypoints hb lb rb =
      ⟨⟨(hb.x : ℚ) + (hb.width : ℚ) / 2, (hb.y : ℚ) + (hb.height : ℚ) / 2⟩,
       ⟨(lb.x : ℚ) + (lb.width : ℚ) / 2, (lb.y : ℚ) + (lb.height : ℚ) / 2⟩,
       ⟨(rb.x : ℚ) + (rb.width : ℚ) / 2, (rb.y : ℚ) + (rb.height : ℚ) / 2⟩⟩) ∧
    (∀ (b : BBoxI) (p : Point), normPoint b p =
      ⟨pyRound6 (clamp01 ((p.x - (b.x : ℚ)) / (b.width : ℚ))),
       pyRound6 (clamp01 ((p.y - (b.y : ℚ)) / (b.height : ℚ)))⟩) ∧
    (∀ (kp : Keypoints) (hb : BBoxI), 0 < hb.width → 0 < hb.height →
      ∃ rp, compute_relative_pose kp hb = .ok rp ∧
        rp = ⟨normPoint hb kp.head, normPoint hb kp.left_hand,
              normPoint hb kp.right_hand⟩ ∧
        0 ≤ rp.head.x ∧ rp.head.x ≤ 1 ∧ 0 ≤ rp.head.y ∧ rp.head.y ≤ 1 ∧
        0 ≤ rp.left_hand.x ∧ rp.left_hand.x ≤ 1 ∧
        0 ≤ rp.left_hand.y ∧ rp.left_hand.y ≤ 1 ∧
        0 ≤ rp.right_hand.x ∧ rp.right_hand.x ≤ 1 ∧
        0 ≤ rp.right_hand.y ∧ rp.right_hand.y ≤ 1) := by
  refine ⟨?_, ?_, ?_⟩
  · intro hb lb rb
    simp [boxes_to_keypoints, boxCenter, qAdd_eq, qDiv_eq]
  · intro b p
    simp [normPoint, qSub_eq, qDiv_eq]
  · intro kp hb hw hh
    have hok : compute_relative_pose kp hb =
        .ok ⟨normPoint hb kp.head, normPoint hb kp.left_hand, normPoint hb kp.right_hand⟩ := by
      rw [compute_relative_pose, if_neg]
      push_neg
      exact ⟨hw, hh⟩
    obtain ⟨h1, h2, h3, h4⟩ := normPoint_bounds hb kp.head
    obtain ⟨h5, h6, h7, h8⟩ := normPoint_bounds hb kp.left_hand
    obtain ⟨h9, h10, h11, h12⟩ := normPoint_bounds hb kp.right_hand
    exact ⟨_, hok, rfl, h1, h2, h3, h4, h5, h6, h7, h8, h9, h10, h11, h12⟩

/-- Witness for C6 at a concrete head box and keypoints lying far outside it:
the clamped coordinates stay in `[0, 1]`. -/
theorem relative_pose_coordinates_clamped_witness :
    0 < (⟨0, 0, 10, 10⟩ : BBoxI).width ∧ 0 < (⟨0, 0, 10, 10⟩ : BBoxI).height ∧
    ∃ rp, compute_relative_pose ⟨⟨100, 100⟩, ⟨-5, 3⟩, ⟨2, 2⟩⟩ ⟨0, 0, 10, 10⟩ = .ok rp ∧
      rp = ⟨normPoint ⟨0, 0, 10, 10⟩ ⟨100, 100⟩, normPoint ⟨0, 0, 10, 10⟩ ⟨-5, 3⟩,
            normPoint ⟨0, 0, 10, 10⟩ ⟨2, 2⟩⟩ ∧
      0 ≤ rp.head.x ∧ rp.head.x ≤ 1 ∧ 0 ≤ rp.head.y ∧ rp.head.y ≤ 1 ∧
      0 ≤ rp.left_hand.x ∧ rp.left_hand.x ≤ 1 ∧
      0 ≤ rp.left_hand.y ∧ rp.left_hand.y ≤ 1 ∧
      0 ≤ rp.right_hand.x ∧ rp.right_hand.x ≤ 1 ∧
      0 ≤ rp.right_hand.y ∧ rp.right_hand.y ≤ 1 :=
  ⟨by decide, by decide,
    relative_pose_coordinates_clamped.2.2 ⟨⟨100, 100⟩, ⟨-5, 3⟩, ⟨2, 2⟩⟩ ⟨0, 0, 10, 10⟩
      (by decide) (by decide)⟩

/-! ## `save_label` mutates only on success (C7) -/

theorem save_label_core_ok_shape (data : Doc) (fn : String) (boxes : BoxesDict)
    (label : ℤ) (hl : Option ℤ) (d : Doc)
    (h : save_label_core data fn boxes label hl = .ok d) :
    ∃ hb lb rb rp fr0, findFrame data.frames fn = some fr0 ∧
      d = { data with
              frames :=
                updateFirst data.frames fn
                  (poseUpdate label hl hb lb rb (boxes_to_keypoints hb lb rb) rp) } := by
  rw [save_label_core.eq_def] at h
  repeat' split at h
  all_goals try exact Except.noConfusion h
  next fr0 heq =>
    injection h with h
    exact ⟨_, _, _, _, fr0, heq, h.symm⟩

/-- C7: `save_label` performs all validation before any mutation — whenever it
fails (invalid label, invalid hand label, missing or invalid box, missing
session or frame), no document write happens; on success exactly one document
write happens, and in it the frame record carries all derived fields together
(`labeled`, `label`, `hand_label`, the three boxes, keypoints, relative
pose). -/
theorem save_label_validation_before_mutation :
    (∀ (store : Option Doc) (fn : String) (boxes : BoxesDict) (label : ℤ)
        (hl : Option ℤ) (e : Err),
      (save_label store fn boxes label hl).2 = .error e →
      (save_label store fn boxes label hl).1 = []) ∧
    (∀ (store : Option Doc) (fn : String) (boxes : BoxesDict) (label : ℤ)
        (hl : Option ℤ),
      (save_label store fn boxes label hl).2 = .ok () →
      ∃ d fr, (save_label store fn boxes label hl).1 = [d] ∧
        findFrame d.frames fn = some fr ∧
        fr.labeled = true ∧ fr.label = some label ∧ fr.hand_label = hl ∧
        fr.head_box.isSome = true ∧ fr.left_hand_box.isSome = true ∧
        fr.right_hand_box.isSome = true ∧ fr.keypoints.isSome = true ∧
        fr.relative_pose.isSome = true) := by
  constructor
  · intro store fn boxes label hl e h
    cases store with
    | none => rfl
    | some data =>
      cases hc : save_label_core data fn boxes label hl with
      | error e2 => simp [save_label, hc]
      | ok d => simp [save_label, hc] at h
  · intro store fn boxes label hl h
    cases store with
    | none => simp [save_label] at h
    | some data =>
      cases hc : save_label_core data fn boxes label hl with
      | error e2 => simp [save_label, hc] at h
      | ok d =>
        obtain ⟨hb, lb, rb, rp, fr0, hfind, rfl⟩ :=
          save_label_core_ok_shape data fn boxes label hl d hc
        have hupd := findFrame_updateFirst fn
          (poseUpdate label hl hb lb rb (boxes_to_keypoints hb lb rb) rp)
          (fun fr => rfl) data.frames
        rw [hfind, Option.map_some'] at hupd
        refine ⟨{ data with
                    frames :=
                      updateFirst data.frames fn
                        (poseUpdate label hl hb lb rb (boxes_to_keypoints hb lb rb) rp) },
          poseUpdate label hl hb lb rb (boxes_to_keypoints hb lb rb) rp fr0,
          by simp [save_label, hc], hupd, rfl, rfl, rfl, rfl, rfl, rfl, rfl, rfl⟩

/-- A concrete valid pose-label payload used by the C7 witness. -/
def c7Boxes : BoxesDict :=
  ⟨some ⟨.num 10, .num 20, .num 30, .num 40⟩,
   some ⟨.num 1, .num 2, .num 3, .num 4⟩,
   some ⟨.num 5, .num 6, .num 7, .num 8⟩⟩

/-- A one-frame session document store used by the C7 witness. -/
def c7Store : Option Doc := some (initialize_session "s" 5 ["frame_00001.jpg"])

/-- Witness for C7: a concrete successful pose-label call, with the success
conjunct obtained by applying the theorem there. -/
theorem save_label_validation_before_mutation_witness :
    (save_label c7Store "frame_00001.jpg" c7Boxes 3 (some 2)).2 = .ok () ∧
    ∃ d fr, (save_label c7Store "frame_00001.jpg" c7Boxes 3 (some 2)).1 = [d] ∧
      findFrame d.frames "frame_00001.jpg" = some fr ∧
      fr.labeled = true ∧ fr.label = some 3 ∧ fr.hand_label = some 2 ∧
      fr.head_box.isSome = true ∧ fr.left_hand_box.isSome = true ∧
      fr.right_hand_box.isSome = true ∧ fr.keypoints.isSome = true ∧
      fr.relative_pose.isSome = true :=
  ⟨by rfl,
    save_label_validation_before_mutation.2 c7Store "frame_00001.jpg" c7Boxes 3 (some 2)
      (by rfl)⟩

/-! ## The labeled-record invariant over operation sequences (C1) -/

/-- A label-engine operation on a stored session document. -/
inductive Op where
  | saveLabel (frame_name : String) (boxes : BoxesDict) (label : ℤ) (hand_label : Option ℤ)
  | saveDetections (frame_name : String) (detections : List RawDet) (saved : Bool)
  | resetLabels

/-- Apply one operation to the stored document; an operation that raises leaves
the document unchanged (C7). -/
def applyOp (data : Doc) : Op → Doc
  | .saveLabel fn boxes label hl =>
    match save_label_core data fn boxes label hl with
    | .ok d => d
    | .error _ => data
  | .saveDetections fn dets saved =>
    match save_detections (some data) fn dets saved with
    | some (d, _) => d
    | none => data
  | .resetLabels =>
    match reset_labels (some data) with
    | some d => d
    | none => data

/-- Apply a sequence of operations. -/
def applyOps (data : Doc) (ops : List Op) : Doc := ops.foldl applyOp data

/-- The part of the claimed invariant that the code maintains on every frame
record: a pose-labeled record carries its label and its three boxes. -/
def labeledInv (fr : FrameRecord) : Prop :=
  fr.labeled = true →
    fr.label.isSome = true ∧ fr.head_box.isSome = true ∧
    fr.left_hand_box.isSome = true ∧ fr.right_hand_box.isSome = true

theorem mem_updateFirst (fn : String) (g : FrameRecord → FrameRecord) :
    ∀ (frames : List FrameRecord) (fr' : FrameRecord),
      fr' ∈ updateFirst frames fn g → fr' ∈ frames ∨ ∃ fr ∈ frames, fr' = g fr := by
  intro frames
  induction frames with
  | nil => intro fr' h; exact absurd h (by simp [updateFirst])
  | cons fr rest ih =>
    intro fr' h
    by_cases hc : fr.frame_name == fn
    · rw [updateFirst, if_pos hc, List.mem_cons] at h
      rcases h with h | h
      · exact Or.inr ⟨fr, List.mem_cons_self fr rest, h⟩
      · exact Or.inl (List.mem_cons_of_mem fr h)
    · rw [updateFirst, if_neg hc, List.mem_cons] at h
      rcases h with h | h
      · exact Or.inl (h ▸ List.mem_cons_self fr rest)
      · rcases ih fr' h with h2 | ⟨fr2, h2, h3⟩
        · exact Or.inl (List.mem_cons_of_mem fr h2)
        · exact Or.inr ⟨fr2, List.mem_cons_of_mem fr h2, h3⟩

theorem labeledInv_applyOp (data : Doc) (op : Op)
    (hinv : ∀ fr ∈ data.frames, labeledInv fr) :
    ∀ fr ∈ (applyOp data op).frames, labeledInv fr := by
  cases op with
  | saveLabel fn boxes label hl =>
    cases hc : save_label_core data fn boxes label hl with
    | error e => simpa [applyOp, hc] using hinv
    | ok d =>
      obtain ⟨hb, lb, rb, rp, fr0, hfind, rfl⟩ :=
        save_label_core_ok_shape data fn boxes label hl d hc
      intro fr hmem
      simp only [applyOp, hc] at hmem
      rcases mem_updateFirst fn _ data.frames fr hmem with h | ⟨fr2, _, rfl⟩
      · exact hinv fr h
      · intro _
        exact ⟨rfl, rfl, rfl, rfl⟩
  | saveDetections fn dets saved =>
    intro fr hmem
    simp only [applyOp, save_detections] at hmem
    rw [detUpdateFrames] at hmem
    rcases hfind : findFrame data.frames fn with _ | fr0 <;> rw [hfind] at hmem
    · rcases List.mem_append.mp hmem with h | h
      · exact hinv fr h
      · rw [List.mem_singleton] at h
        subst h
        intro hlab
        exact absurd hlab (by simp [setDetFields])
    · rcases mem_updateFirst fn _ data.frames fr hmem with h | ⟨fr2, h2, rfl⟩
      · exact hinv fr h
      · intro hlab
        have hlab2 : fr2.labeled = true := hlab
        rcases hinv fr2 h2 hlab2 with ⟨a, b, c, d⟩
        exact ⟨a, b, c, d⟩
  | resetLabels =>
    intro fr hmem
    simp only [applyOp, reset_labels] at hmem
    rcases List.mem_map.mp hmem with ⟨fr0, _, rfl⟩
    intro hlab
    exact absurd hlab (by simp [resetFrame])

/-- C1 (amended): after any sequence of label-engine operations starting from
a freshly initialized session, every frame record with `labeled = true` has
its classification label and all three pose boxes present.  (The hand-label is
NOT guaranteed: `save_label` accepts `hand_label = None` and stores it.) -/
theorem labeled_frames_carry_label_and_boxes (sid : String) (fps : ℤ)
    (names : List String) (ops : List Op) :
    ∀ fr ∈ (applyOps (initialize_session sid fps names) ops).frames,
      fr.labeled = true →
        fr.label.isSome = true ∧ fr.head_box.isSome = true ∧
        fr.left_hand_box.isSome = true ∧ fr.right_hand_box.isSome = true := by
  have hbase : ∀ fr ∈ (initialize_session sid fps names).frames, labeledInv fr := by
    intro fr hmem
    rcases List.mem_map.mp hmem with ⟨name, _, rfl⟩
    intro hlab
    exact absurd hlab (by simp)
  have hstep : ∀ (data : Doc) (hd : ∀ fr ∈ data.frames, labeledInv fr),
      ∀ fr ∈ (applyOps data ops).frames, labeledInv fr := by
    induction ops with
    | nil => intro data hd; exact hd
    | cons op rest ih =>
      intro data hd
      exact ih (applyOp data op) (labeledInv_applyOp data op hd)
  exact hstep (initialize_session sid fps names) hbase

/-- The pose-label operation of the C1 counterexample: a valid request that
omits the hand label. -/
def c1Op : Op := .saveLabel "frame_00001.jpg" c7Boxes 3 none

/-- C1 counterexample: one successful pose-label call with `hand_label`
omitted yields a frame record with `labeled = true` whose hand-label is
absent (`none`), refuting "if `labeled` is true … the hand-label is present". -/
theorem labeled_record_may_lack_hand_label :
    ((applyOps (initialize_session "s" 5 ["frame_00001.jpg"]) [c1Op]).frames.map
      (fun fr => (fr.labeled, fr.hand_label))) = [(true, none)] := by
  rfl

/-- The frame record produced by the C1 witness scenario. -/
def c1FrameW : FrameRecord :=
  ((applyOps (initialize_session "s" 5 ["frame_00001.jpg"]) [c1Op]).frames).getD 0
    { frame_name := "" }

/-- Witness for the amended C1 at a concrete operation sequence. -/
theorem labeled_frames_carry_label_and_boxes_witness :
    c1FrameW ∈ (applyOps (initialize_session "s" 5 ["frame_00001.jpg"]) [c1Op]).frames ∧
    c1FrameW.labeled = true ∧
    (c1FrameW.label.isSome = true ∧ c1FrameW.head_box.isSome = true ∧
     c1FrameW.left_hand_box.isSome = true ∧ c1FrameW.right_hand_box.isSome = true) :=
  ⟨by decide, by rfl,
    labeled_frames_carry_label_and_boxes "s" 5 ["frame_00001.jpg"] [c1Op] c1FrameW
      (by decide) (by rfl)⟩

/-! ## The pose-label endpoint calls `save_label` with a bad keyword (C2) -/

/-- The parameter names of `label_service.save_label`. -/
def save_label_params : List String :=
  ["session_id", "frame_name", "boxes", "label", "hand_label"]

/-- The parameters of `save_label` that have no default value. -/
def save_label_required_params : List String :=
  ["session_id", "frame_name", "boxes", "label"]

/-- The keyword names `submit_label` (in `api/labels.py`) passes to
`label_service.save_label`. -/
def submit_label_kwargs : List String :=
  ["session_id", "frame_name", "bbox", "label", "hand_label"]

/-- Python keyword-argument binding for a keyword-only call: it succeeds iff
every keyword names a parameter and every parameter without a default is
supplied; otherwise the interpreter raises `TypeError` before the callee's
body runs. -/
def kwargsBind (params required kwargs : List String) : Bool :=
  kwargs.all (fun k => params.contains k) && required.all (fun p => kwargs.contains p)

/-- The service call made by `submit_label`: the keyword binding against
`save_label`'s signature is checked first; `none` models the `TypeError`
raised before `save_label`'s body (so before any validation or write) can
run. -/
def submit_label (store : Option Doc) (fn : String) (boxes : BoxesDict)
    (label : ℤ) (hl : Option ℤ) : Option (List Doc × Except Err Unit) :=
  if kwargsBind save_label_params save_label_required_params submit_label_kwargs
    then some (save_label store fn boxes label hl)
  else none

/-- C2: `submit_label` passes the keyword `bbox`, which `save_label` does not
accept (it requires `boxes`), so the binding fails on every request: the call
raises `TypeError` before any validation or mutation and the success branch is
unreachable. -/
theorem submit_label_always_raises_TypeError :
    ("bbox" ∈ submit_label_kwargs ∧ "bbox" ∉ save_label_params ∧
     "boxes" ∈ save_label_required_params ∧ "boxes" ∉ submit_label_kwargs) ∧
    kwargsBind save_label_params save_label_required_params submit_label_kwargs = false ∧
    ∀ (store : Option Doc) (fn : String) (boxes : BoxesDict) (label : ℤ)
      (hl : Option ℤ), submit_label store fn boxes label hl = none := by
  refine ⟨by decide, by decide, ?_⟩
  intro store fn boxes label hl
  rw [submit_label, if_neg]
  simp only [kwargsBind]
  decide

/-! ## Classification export (C8) -/

/-- An abstract decoded image: only its dimensions (`shape[1]`, `shape[0]`)
drive the export's control flow. -/
structure Image where
  width : ℤ
  height : ℤ
  deriving DecidableEq, Repr

/-- `_fit_bbox_within`: raise on nonpositive box extent, cap to the image,
clamp the origin. -/
def fit_bbox_within (b : BBoxI) (maxW maxH : ℤ) : Except Err (ℤ × ℤ × ℤ × ℤ) :=
  if b.width ≤ 0 ∨ b.height ≤ 0 then .error .invalidBox
  else
    .ok (max 0 (min b.x (maxW - min b.width maxW)),
         max 0 (min b.y (maxH - min b.height maxH)),
         min b.width maxW, min b.height maxH)

/-- `_crop_from_image`, yielding the extracted sub-image's dimensions. -/
def crop_from_image (img : Image) (b : BBoxI) : Except Err Image :=
  match fit_bbox_within b img.width img.height with
  | .error e => .error e
  | .ok (_, _, w, h) => .ok ⟨w, h⟩

/-- `_concat_hands`: canvas height is the max, width the sum. -/
def concat_hands (l r : Image) : Image := ⟨l.width + r.width, max l.height r.height⟩

/-- `f"head_{head_index:05d}.jpg"`. -/
def headName (k : ℕ) : String := "head_" ++ pad5 k ++ ".jpg"

/-- `f"hand_{hand_index:05d}.jpg"`. -/
def handName (k : ℕ) : String := "hand_" ++ pad5 k ++ ".jpg"

/-- The running state of `export_dataset`'s loop: archive entry paths written
so far, the two manifest record lists, and the two sequence counters. -/
structure ExportSt where
  entries : List String
  head_records : List (String × ℤ)
  hand_records : List (String × ℤ)
  head_index : ℕ
  hand_index : ℕ
  deriving DecidableEq, Repr

def exportInit : ExportSt := ⟨[], [], [], 1, 1⟩

/-- One iteration of `export_dataset`'s `for frame in frames` loop.  `images`
maps a frame file name to its decoded image (`none`: the file does not exist
or `imread` failed).  The second component is `some e` when an exception
aborts the export (the state already holds everything written before it). -/
def export_step (images : String → Option Image) (st : ExportSt)
    (fr : FrameRecord) : ExportSt × Option Err :=
  if !fr.labeled then (st, none)
  else if fr.frame_name == "" then (st, none)
  else match fr.head_box, fr.left_hand_box, fr.right_hand_box with
    | some head_box, some left_box, some right_box =>
      (match fr.label, fr.hand_label with
       | some label_value, some hand_label_value =>
         (match images fr.frame_name with
          | none => (st, none)
          | some image =>
            match crop_from_image image head_box with
            | .error e => (st, some e)
            | .ok _head_crop =>
              let st1 : ExportSt :=
                { st with
                    entries :=
                      st.entries ++ ["data/head_pose/images/" ++ headName st.head_index],
                    head_records :=
                      st.head_records ++ [(headName st.head_index, label_value)],
                    head_index := st.head_index + 1 }
              match crop_from_image image left_box, crop_from_image image right_box with
              | .error e, _ => (st1, some e)
              | .ok _, .error e => (st1, some e)
              | .ok left_crop, .ok right_crop =>
                let _hand_crop := concat_hands left_crop right_crop
                ({ st1 with
                     entries :=
                       st1.entries ++ ["data/hand_pose/images/" ++ handName st1.hand_index],
                     hand_records :=
                       st1.hand_records ++ [(handName st1.hand_index, hand_label_value)],
                     hand_index := st1.hand_index + 1 }, none))
       | _, _ => (st, none))
    | _, _, _ => (st, none)

/-- The export loop over the stored frame list, in stored order; an exception
stops the iteration. -/
def exportLoop (images : String → Option Image) :
    List FrameRecord → ExportSt → ExportSt × Option Err
  | [], st => (st, none)
  | fr :: rest, st =>
    match export_step images st fr with
    | (st', none) => exportLoop images rest st'
    | (st', some e) => (st', some e)

/-- `export_dataset` over the document store: `none` iff the session document
does not exist; on an exception-free run the two `labels.json` manifests are
appended after the loop. -/
def export_dataset (store : Option Doc) (images : String → Option Image) :
    Option (ExportSt × Option Err) :=
  match store with
  | none => none
  | some data =>
    match exportLoop images data.frames exportInit with
    | (st, none) =>
      some ({ st with
                entries := st.entries ++
                  ["data/head_pose/labels.json", "data/hand_pose/labels.json"] }, none)
    | (st, some e) => (st, some e)

/-- The condition under which `export_dataset` skips a frame: not pose-labeled,
a falsy frame name, a missing required field, or an unreadable source image. -/
def exportSkip (images : String → Option Image) (fr : FrameRecord) : Bool :=
  !fr.labeled || fr.frame_name == "" || fr.head_box.isNone || fr.left_hand_box.isNone ||
  fr.right_hand_box.isNone || fr.label.isNone || fr.hand_label.isNone ||
  (images fr.frame_name).isNone

/-- The gapless-counters invariant: manifest file names are `head_00001.jpg`,
`head_00002.jpg`, … resp. `hand_00001.jpg`, …, and each counter is one past
the number of entries emitted for its type. -/
def stInv (st : ExportSt) : Prop :=
  st.head_records.map Prod.fst = (List.range' 1 st.head_records.length).map headName ∧
  st.head_index = st.head_records.length + 1 ∧
  st.hand_records.map Prod.fst = (List.range' 1 st.hand_records.length).map handName ∧
  st.hand_index = st.hand_records.length + 1

theorem export_step_skip (images : String → Option Image) (st : ExportSt)
    (fr : FrameRecord) (h : exportSkip images fr = true) :
    export_step images st fr = (st, none) := by
  unfold exportSkip at h
  unfold export_step
  cases hlab : fr.labeled <;>
  cases hname : fr.frame_name == "" <;>
  cases hhb : fr.head_box <;>
  cases hlb : fr.left_hand_box <;>
  cases hrb : fr.right_hand_box <;>
  cases hlv : fr.label <;>
  cases hhl : fr.hand_label <;>
  cases himg : images fr.frame_name <;>
    simp_all

theorem export_step_inv (images : String → Option Image) (st : ExportSt)
    (fr : FrameRecord) (h : stInv st) : stInv (export_step images st fr).1 := by
  obtain ⟨h1, h2, h3, h4⟩ := h
  unfold export_step
  repeat' split
  all_goals simp_all [stInv, List.range'_concat, Nat.add_comm 1]

theorem exportLoop_inv (images : String → Option Image) :
    ∀ (frames : List FrameRecord) (st : ExportSt), stInv st →
      stInv (exportLoop images frames st).1 := by
  intro frames
  induction frames with
  | nil => intro st h; exact h
  | cons fr rest ih =>
    intro st h
    rw [exportLoop]
    cases hs : export_step images st fr with
    | mk st' err =>
      have h' : stInv st' := by
        have := export_step_inv images st fr h
        rw [hs] at this
        exact this
      cases err with
      | none => exact ih st' h'
      | some e => exact h'

/-- C8: the export loop iterates frames in stored order; every frame matching
a skip condition (not pose-labeled, missing frame name/box/label/hand-label,
source image missing or undecodable) leaves the state and the error channel
untouched; and in every run — aborted or not — the emitted head entries are
exactly `head_00001.jpg`, `head_00002.jpg`, … and the emitted hand entries
exactly `hand_00001.jpg`, …, two independent counters starting at 1,
strictly increasing by 1 per emitted entry with no gaps. -/
theorem export_counters_gapless_and_skips_silent :
    (∀ (images : String → Option Image) (st : ExportSt) (fr : FrameRecord),
      exportSkip images fr = true → export_step images st fr = (st, none)) ∧
    (∀ (images : String → Option Image) (frames : List FrameRecord),
      (exportLoop images frames exportInit).1.head_records.map Prod.fst =
        (List.range' 1 (exportLoop images frames exportInit).1.head_records.length).map
          headName ∧
      (exportLoop images frames exportInit).1.hand_records.map Prod.fst =
        (List.range' 1 (exportLoop images frames exportInit).1.hand_records.length).map
          handName) := by
  refine ⟨export_step_skip, ?_⟩
  intro images frames
  have h := exportLoop_inv images frames exportInit ⟨rfl, rfl, rfl, rfl⟩
  exact ⟨h.1, h.2.2.1⟩

/-- Witness for C8: a concrete skipped frame (unlabeled) under an image store
with no images. -/
theorem export_counters_gapless_and_skips_silent_witness :
    exportSkip (fun _ => none) { frame_name := "frame_00001.jpg" } = true ∧
    export_step (fun _ => none) exportInit { frame_name := "frame_00001.jpg" } =
      (exportInit, none) :=
  ⟨by decide,
    export_counters_gapless_and_skips_silent.1 (fun _ => none) exportInit
      { frame_name := "frame_00001.jpg" } (by decide)⟩

/-! ## Extraction concurrency admission (C10)

`extract_frames` guards the decode loop with
`_extract_semaphore = BoundedSemaphore(MAX_CONCURRENT_EXTRACTIONS)` where
`MAX_CONCURRENT_EXTRACTIONS = 2`: it first tries
`acquire(blocking=False)`; on failure it writes status `queued` (with the
waiting message) and then blocks in `acquire()`; once it holds a slot it
writes `processing`, decodes, and releases the slot.  The protocol is modelled
as a transition system over any number of concurrent extraction requests. -/

/-- A status value written to a session's status record by the admission
protocol (`queued` carries the waiting message in the source). -/
inductive StatusV where
  | queued
  | processing
  | done
  deriving DecidableEq, Repr

/-- One extraction request's position in `extract_frames`'s admission
protocol; `viaQueue` records whether the non-blocking acquire had failed. -/
inductive Phase where
  | start
  | fastFailed
  | queuedWaiting
  | holding (viaQueue : Bool)
  | working (viaQueue : Bool)
  | finished (viaQueue : Bool)
  deriving DecidableEq, Repr

/-- One extraction request: its phase and the status values it has written to
its session's status record, oldest first. -/
structure ExtThread where
  phase : Phase
  log : List StatusV
  deriving DecidableEq, Repr

/-- Global state: the free slots of the bounded semaphore and the requests. -/
structure Sys where
  sem : ℕ
  threads : List ExtThread
  deriving DecidableEq, Repr

/-- `n` extraction requests about to start, both slots free. -/
def initSys (n : ℕ) : Sys := ⟨2, List.replicate n ⟨.start, []⟩⟩

/-- A request holds a semaphore slot while between a successful acquire and
its release. -/
def isActive (t : ExtThread) : Bool :=
  match t.phase with
  | .holding _ => true
  | .working _ => true
  | _ => false

/-- Number of requests currently holding a slot. -/
def activeCount (s : Sys) : ℕ := s.threads.countP (fun t => isActive t)

/-- The interleaving semantics of the admission protocol, one scheduler step
at a time. -/
inductive Step : Sys → Sys → Prop where
  | tryAcqOk (s : Sys) (i : ℕ) (t : ExtThread) (h : s.threads.get? i = some t)
      (hp : t.phase = .start) (hs : 0 < s.sem) :
      Step s ⟨s.sem - 1, s.threads.set i { t with phase := .holding false }⟩
  | tryAcqFail (s : Sys) (i : ℕ) (t : ExtThread) (h : s.threads.get? i = some t)
      (hp : t.phase = .start) (hs : s.sem = 0) :
      Step s ⟨s.sem, s.threads.set i { t with phase := .fastFailed }⟩
  | writeQueued (s : Sys) (i : ℕ) (t : ExtThread) (h : s.threads.get? i = some t)
      (hp : t.phase = .fastFailed) :
      Step s ⟨s.sem, s.threads.set i
        { t with phase := .queuedWaiting, log := t.log ++ [.queued] }⟩
  | blockingAcq (s : Sys) (i : ℕ) (t : ExtThread) (h : s.threads.get? i = some t)
      (hp : t.phase = .queuedWaiting) (hs : 0 < s.sem) :
      Step s ⟨s.sem - 1, s.threads.set i { t with phase := .holding true }⟩
  | writeProcessing (s : Sys) (i : ℕ) (t : ExtThread) (b : Bool)
      (h : s.threads.get? i = some t) (hp : t.phase = .holding b) :
      Step s ⟨s.sem, s.threads.set i
        { t with phase := .working b, log := t.log ++ [.processing] }⟩
  | release (s : Sys) (i : ℕ) (t : ExtThread) (b : Bool)
      (h : s.threads.get? i = some t) (hp : t.phase = .working b) :
      Step s ⟨s.sem + 1, s.threads.set i
        { t with phase := .finished b, log := t.log ++ [.done] }⟩

/-- States reachable from `n` fresh requests. -/
def Reachable (n : ℕ) (s : Sys) : Prop := Relation.ReflTransGen Step (initSys n) s

/-- A request's status log is determined by its phase: in particular a request
that went through the queue has written `queued` strictly before
`processing`. -/
def threadOk (t : ExtThread) : Prop :=
  match t.phase with
  | .start => t.log = []
  | .fastFailed => t.log = []
  | .queuedWaiting => t.log = [.queued]
  | .holding false => t.log = []
  | .holding true => t.log = [.queued]
  | .working false => t.log = [.processing]
  | .working true => t.log = [.queued, .processing]
  | .finished false => t.log = [.processing, .done]
  | .finished true => t.log = [.queued, .processing, .done]

/-- The global invariant: slots in use plus free slots is exactly the bound 2,
and every request's log matches its phase. -/
def sysInv (s : Sys) : Prop :=
  activeCount s + s.sem = 2 ∧ ∀ t ∈ s.threads, threadOk t

theorem countP_set (p : ExtThread → Bool) :
    ∀ (l : List ExtThread) (i : ℕ) (t t' : ExtThread), l.get? i = some t →
      (l.set i t').countP p + (if p t then 1 else 0) =
        l.countP p + (if p t' then 1 else 0) := by
  intro l
  induction l with
  | nil => intro i t t' h; simp at h
  | cons a rest ih =>
    intro i t t' h
    cases i with
    | zero =>
      simp only [List.get?] at h
      injection h with h
      subst h
      simp only [List.set, List.countP_cons]
      by_cases hp : p a <;> by_cases hp' : p t' <;> simp [hp, hp'] <;> omega
    | succ j =>
      simp only [List.get?] at h
      simp only [List.set, List.countP_cons]
      have := ih j t t' h
      by_cases hp : p a <;> simp [hp] <;> omega

theorem mem_set_of_mem :
    ∀ (l : List ExtThread) (i : ℕ) (t' u : ExtThread), u ∈ l.set i t' →
      u ∈ l ∨ u = t' := by
  intro l
  induction l with
  | nil => intro i t' u h; simp [List.set] at h
  | cons a rest ih =>
    intro i t' u h
    cases i with
    | zero =>
      rw [List.set, List.mem_cons] at h
      rcases h with h | h
      · exact Or.inr h
      · exact Or.inl (List.mem_cons_of_mem a h)
    | succ j =>
      rw [List.set, List.mem_cons] at h
      rcases h with h | h
      · exact Or.inl (h ▸ List.mem_cons_self a rest)
      · rcases ih j t' u h with h2 | h2
        · exact Or.inl (List.mem_cons_of_mem a h2)
        · exact Or.inr h2

theorem get?_mem_threads {l : List ExtThread} {i : ℕ} {t : ExtThread}
    (h : l.get? i = some t) : t ∈ l := List.get?_mem h

theorem threads_ok_set (s : Sys) (i : ℕ) (t t' : ExtThread)
    (hok : ∀ u ∈ s.threads, threadOk u)
    (hok' : threadOk t') :
    ∀ u ∈ s.threads.set i t', threadOk u := by
  intro u hu
  rcases mem_set_of_mem s.threads i t' u hu with h2 | h2
  · exact hok u h2
  · exact h2 ▸ hok'

theorem sysInv_step {s s' : Sys} (hstep : Step s s') (hinv : sysInv s) : sysInv s' := by
  obtain ⟨hcount, hok⟩ := hinv
  cases hstep with
  | tryAcqOk i t h hp hs =>
    refine ⟨?_, threads_ok_set s i t _ hok ?_⟩
    · have hc := countP_set (fun x => isActive x) s.threads i t
        { t with phase := .holding false } h
      have ht : isActive t = false := by simp [isActive, hp]
      have ht' : isActive { t with phase := Phase.holding false } = true := by
        simp [isActive]
      simp only [ht, ht'] at hc
      simp only [activeCount] at hcount ⊢
      simp only [Bool.false_eq_true, if_false, if_true] at hc
      omega
    · have hlog := hok t (get?_mem_threads h)
      rw [threadOk, hp] at hlog
      simp [threadOk, hlog]
  | tryAcqFail i t h hp hs =>
    refine ⟨?_, threads_ok_set s i t _ hok ?_⟩
    · have hc := countP_set (fun x => isActive x) s.threads i t
        { t with phase := .fastFailed } h
      have ht : isActive t = false := by simp [isActive, hp]
      have ht' : isActive { t with phase := Phase.fastFailed } = false := by
        simp [isActive]
      simp only [ht, ht'] at hc
      simp only [activeCount] at hcount ⊢
      simp only [Bool.false_eq_true, if_false] at hc
      omega
    · have hlog := hok t (get?_mem_threads h)
      rw [threadOk, hp] at hlog
      simp [threadOk, hlog]
  | writeQueued i t h hp =>
    refine ⟨?_, threads_ok_set s i t _ hok ?_⟩
    · have hc := countP_set (fun x => isActive x) s.threads i t
        { t with phase := .queuedWaiting, log := t.log ++ [.queued] } h
      have ht : isActive t = false := by simp [isActive, hp]
      have ht' : isActive
          { t with phase := Phase.queuedWaiting, log := t.log ++ [.queued] } = false := by
        simp [isActive]
      simp only [ht, ht'] at hc
      simp only [activeCount] at hcount ⊢
      simp only [Bool.false_eq_true, if_false] at hc
      omega
    · have hlog := hok t (get?_mem_threads h)
      rw [threadOk, hp] at hlog
      simp [threadOk, hlog]
  | blockingAcq i t h hp hs =>
    refine ⟨?_, threads_ok_set s i t _ hok ?_⟩
    · have hc := countP_set (fun x => isActive x) s.threads i t
        { t with phase := .holding true } h
      have ht : isActive t = false := by simp [isActive, hp]
      have ht' : isActive { t with phase := Phase.holding true } = true := by
        simp [isActive]
      simp only [ht, ht'] at hc
      simp only [activeCount] at hcount ⊢
      simp only [Bool.false_eq_true, if_false, if_true] at hc
      omega
    · have hlog := hok t (get?_mem_threads h)
      rw [threadOk, hp] at hlog
      simp [threadOk, hlog]
  | writeProcessing i t b h hp =>
    refine ⟨?_, threads_ok_set s i t _ hok ?_⟩
    · have hc := countP_set (fun x => isActive x) s.threads i t
        { t with phase := .working b, log := t.log ++ [.processing] } h
      have ht : isActive t = true := by simp [isActive, hp]
      have ht' : isActive
          { t with phase := Phase.working b, log := t.log ++ [.processing] } = true := by
        simp [isActive]
      simp only [ht, ht'] at hc
      simp only [activeCount] at hcount ⊢
      simp only [if_true] at hc
      omega
    · have hlog := hok t (get?_mem_threads h)
      rw [threadOk, hp] at hlog
      cases b <;> simp_all [threadOk]
  | release i t b h hp =>
    refine ⟨?_, threads_ok_set s i t _ hok ?_⟩
    · have hc := countP_set (fun x => isActive x) s.threads i t
        { t with phase := .finished b, log := t.log ++ [.done] } h
      have ht : isActive t = true := by simp [isActive, hp]
      have ht' : isActive
          { t with phase := Phase.finished b, log := t.log ++ [.done] } = false := by
        simp [isActive]
      simp only [ht, ht'] at hc
      simp only [activeCount] at hcount ⊢
      simp only [Bool.false_eq_true, if_false, if_true] at hc
      omega
    · have hlog := hok t (get?_mem_threads h)
      rw [threadOk, hp] at hlog
      cases b <;> simp_all [threadOk]

theorem sysInv_init (n : ℕ) : sysInv (initSys n) := by
  constructor
  · have h0 : activeCount (initSys n) = 0 := by
      rw [activeCount, List.countP_eq_zero]
      intro t ht
      rw [List.eq_of_mem_replicate ht]
      simp [isActive]
    rw [h0]
    rfl
  · intro t ht
    rw [List.eq_of_mem_replicate ht]
    simp [threadOk]

theorem extraction_admission_bounded (n : ℕ) (s : Sys) (h : Reachable n s) :
    (activeCount s + s.sem = 2 ∧ activeCount s ≤ 2) ∧
    (s.sem = 0 → activeCount s = 2) ∧
    (∀ t ∈ s.threads, threadOk t) ∧
    (∀ t ∈ s.threads, t.phase = .working true → t.log = [.queued, .processing]) := by
  have hinv : sysInv s := by
    induction h with
    | refl => exact sysInv_init n
    | tail _ hstep ih => exact sysInv_step hstep ih
  obtain ⟨hcount, hok⟩ := hinv
  refine ⟨⟨hcount, by omega⟩, ?_, hok, ?_⟩
  · intro hs
    omega
  · intro t ht hp
    have := hok t ht
    rwa [threadOk, hp] at this

/-- A state reached by three concurrent extraction requests: the first two
took the slots directly, the third failed the fast acquire, wrote `queued`,
waited for the first to finish, and is now decoding with status history
`[queued, processing]`. -/
def c10Target : Sys :=
  ⟨0, [⟨.finished false, [.processing, .done]⟩, ⟨.holding false, []⟩,
       ⟨.working true, [.queued, .processing]⟩]⟩

theorem c10_run : Reachable 3 c10Target := by
  have h1 : Step (initSys 3) ⟨1, [⟨.holding false, []⟩, ⟨.start, []⟩, ⟨.start, []⟩]⟩ :=
    Step.tryAcqOk (initSys 3) 0 ⟨.start, []⟩ rfl rfl (by decide)
  have h2 : Step ⟨1, [⟨.holding false, []⟩, ⟨.start, []⟩, ⟨.start, []⟩]⟩
      ⟨0, [⟨.holding false, []⟩, ⟨.holding false, []⟩, ⟨.start, []⟩]⟩ :=
    Step.tryAcqOk _ 1 ⟨.start, []⟩ rfl rfl (by decide)
  have h3 : Step ⟨0, [⟨.holding false, []⟩, ⟨.holding false, []⟩, ⟨.start, []⟩]⟩
      ⟨0, [⟨.holding false, []⟩, ⟨.holding false, []⟩, ⟨.fastFailed, []⟩]⟩ :=
    Step.tryAcqFail _ 2 ⟨.start, []⟩ rfl rfl rfl
  have h4 : Step ⟨0, [⟨.holding false, []⟩, ⟨.holding false, []⟩, ⟨.fastFailed, []⟩]⟩
      ⟨0, [⟨.holding false, []⟩, ⟨.holding false, []⟩, ⟨.queuedWaiting, [.queued]⟩]⟩ :=
    Step.writeQueued _ 2 ⟨.fastFailed, []⟩ rfl rfl
  have h5 : Step
      ⟨0, [⟨.holding false, []⟩, ⟨.holding false, []⟩, ⟨.queuedWaiting, [.queued]⟩]⟩
      ⟨0, [⟨.working false, [.processing]⟩, ⟨.holding false, []⟩,
           ⟨.queuedWaiting, [.queued]⟩]⟩ :=
    Step.writeProcessing _ 0 ⟨.holding false, []⟩ false rfl rfl
  have h6 : Step
      ⟨0, [⟨.working false, [.processing]⟩, ⟨.holding false, []⟩,
           ⟨.queuedWaiting, [.queued]⟩]⟩
      ⟨1, [⟨.finished false, [.processing, .done]⟩, ⟨.holding false, []⟩,
           ⟨.queuedWaiting, [.queued]⟩]⟩ :=
    Step.release _ 0 ⟨.working false, [.processing]⟩ false rfl rfl
  have h7 : Step
      ⟨1, [⟨.finished false, [.processing, .done]⟩, ⟨.holding false, []⟩,
           ⟨.queuedWaiting, [.queued]⟩]⟩
      ⟨0, [⟨.finished false, [.processing, .done]⟩, ⟨.holding false, []⟩,
           ⟨.holding true, [.queued]⟩]⟩ :=
    Step.blockingAcq _ 2 ⟨.queuedWaiting, [.queued]⟩ rfl rfl (by decide)
  have h8 : Step
      ⟨0, [⟨.finished false, [.processing, .done]⟩, ⟨.holding false, []⟩,
           ⟨.holding true, [.queued]⟩]⟩ c10Target :=
    Step.writeProcessing _ 2 ⟨.holding true, [.queued]⟩ true rfl rfl
  exact .tail (.tail (.tail (.tail (.tail (.tail (.tail (.tail .refl h1) h2) h3) h4)
    h5) h6) h7) h8

/-- Witness for C10: the state of `c10_run` is reachable and the theorem's
conclusion holds there; in particular the queued third request's status
history is `[queued, processing]`. -/
theorem extraction_admission_bounded_witness :
    Reachable 3 c10Target ∧
    ((activeCount c10Target + c10Target.sem = 2 ∧ activeCount c10Target ≤ 2) ∧
     (c10Target.sem = 0 → activeCount c10Target = 2) ∧
     (∀ t ∈ c10Target.threads, threadOk t) ∧
     (∀ t ∈ c10Target.threads, t.phase = .working true →
       t.log = [.queued, .processing])) :=
  ⟨c10_run, extraction_admission_bounded 3 c10Target c10_run⟩

end FrameAnnotator
